import Mathlib

/-!
Verification development for the medical-document query tool
(`backend/app.py`, `backend/services/opensearch_service.py`,
`backend/services/document/pdf_embedding_service.py`).

Texts are embedded as `List Char` (ASCII semantics for the Python regex
character classes `\d`, `\s`, `\w`, which coincide with Python's behaviour
on the ASCII inputs considered here).  Python's `nltk.sent_tokenize` is an
external library and is modelled as an explicit tokenizer parameter
`tok : Text → List Text`; every theorem quantifies over it unless a
concrete instance is needed for a concrete input.
-/

set_option maxHeartbeats 1000000

/-- Text is modelled as a list of characters, mirroring Python `str`. -/
abbrev Text := List Char

/-- Python whitespace class `\s` (ASCII part): space, tab, newline,
carriage return, vertical tab, form feed. -/
def isPyWs (c : Char) : Bool :=
  c == ' ' || c == '\t' || c == '\n' || c == '\r' || c == '\x0b' || c == '\x0c'

/-- Python word-character class `\w` (ASCII part): letters, digits, underscore. -/
def isWordChar (c : Char) : Bool :=
  c.isAlphanum || c == '_'

/-- Length of the longest prefix of the list all of whose characters satisfy `p`. -/
def countWhile (p : Char → Bool) : Text → Nat
  | [] => 0
  | c :: rest => if p c then countWhile p rest + 1 else 0

/-- Python slice `t[a:b]` (for the in-range uses appearing in the source). -/
def pySlice (t : Text) (a b : Nat) : Text :=
  (t.take b).drop a

/-- Python `str.strip()`: remove leading and trailing whitespace. -/
def pyStrip (t : Text) : Text :=
  ((t.dropWhile isPyWs).reverse.dropWhile isPyWs).reverse

/-- Python `str.lower()` (ASCII). -/
def lowerText (t : Text) : Text :=
  t.map Char.toLower

/-- Boolean prefix test: `leadsWith p t` holds when `p` is an initial segment of `t`. -/
def leadsWith : Text → Text → Bool
  | [], _ => true
  | _ :: _, [] => false
  | a :: as, b :: bs => a == b && leadsWith as bs

/-- Case-insensitive prefix test; the pattern `p` is assumed lowercase and each
text character is lowered before comparison (models `re.IGNORECASE` literals). -/
def leadsWithCI : Text → Text → Bool
  | [], _ => true
  | _ :: _, [] => false
  | a :: as, b :: bs => a == b.toLower && leadsWithCI as bs

/-- Python substring test `needle in hay`. -/
def containsSubstring : Text → Text → Bool
  | [], needle => needle.isEmpty
  | c :: rest, needle => leadsWith needle (c :: rest) || containsSubstring rest needle

/-- Python `str.split(sep)` for a single-character separator (empty pieces kept). -/
def splitOnChar (sep : Char) : Text → List Text
  | [] => [[]]
  | c :: rest =>
    let r := splitOnChar sep rest
    if c == sep then [] :: r
    else
      match r with
      | [] => [[c]]
      | piece :: more => (c :: piece) :: more

/-- Python `sep.join(pieces)`. -/
def joinWith (sep : Text) : List Text → Text
  | [] => []
  | [x] => x
  | x :: y :: rest => x ++ sep ++ joinWith sep (y :: rest)

/-- Concatenation of the images of `f`, mirroring the per-page accumulation loops. -/
def flatMapList (f : α → List β) : List α → List β
  | [] => []
  | a :: l => f a ++ flatMapList f l

/-!  Regex matchers for `_is_medical_term_boundary` (app.py:648-674).
Each matcher implements one of the five patterns, compiled with
`re.IGNORECASE`, at a fixed start position; since the sub-patterns of each
regex draw from disjoint character classes, Python's greedy backtracking
matcher is equivalent to the maximal-munch matchers below. -/

/-- Word boundary `\b` after a match ending at offset `n` of `s`, given that the
character before the boundary is a word character. -/
def nonWordAt (s : Text) (n : Nat) : Bool :=
  match s.drop n with
  | [] => true
  | c :: _ => !(isWordChar c)

/-- Word boundary `\b` before position `i` of `t`, given that the character at
the boundary is a word character. -/
def nonWordBefore (t : Text) (i : Nat) : Bool :=
  i == 0 || !(isWordChar (t.getD (i - 1) ' '))

/-- Matcher for `\d+\s*UNIT\b` (with `UNIT` one of `mg`, `ml`, `mcg`) at
position `i`, under `re.IGNORECASE`; returns the match length. -/
def matchDosageUnitAt (unit : Text) (t : Text) (i : Nat) : Option Nat :=
  let s := t.drop i
  let d := countWhile Char.isDigit s
  if d = 0 then none
  else
    let s2 := s.drop d
    let w := countWhile isPyWs s2
    let s3 := s2.drop w
    if leadsWithCI unit s3 && nonWordAt s3 unit.length then some (d + w + unit.length)
    else none

/-- Matcher for `\b\d+\.\d+\b` (decimal numbers) at position `i`. -/
def matchDecimalAt (t : Text) (i : Nat) : Option Nat :=
  if !nonWordBefore t i then none
  else
    let s := t.drop i
    let d1 := countWhile Char.isDigit s
    if d1 = 0 then none
    else
      let s2 := s.drop d1
      match s2 with
      | '.' :: s3 =>
        let d2 := countWhile Char.isDigit s3
        if d2 = 0 then none
        else if nonWordAt s3 d2 then some (d1 + 1 + d2) else none
      | _ => none

/-- Matcher for `\b[A-Z][a-z]+\s+[A-Z][a-z]+\b` at position `i` under
`re.IGNORECASE` (each letter class then matches any ASCII letter). -/
def matchDrugNameCIAt (t : Text) (i : Nat) : Option Nat :=
  if !nonWordBefore t i then none
  else
    match t.drop i with
    | [] => none
    | c :: s1 =>
      if !c.isAlpha then none
      else
        let r1 := countWhile Char.isAlpha s1
        if r1 = 0 then none
        else
          let w := countWhile isPyWs (s1.drop r1)
          if w = 0 then none
          else
            match s1.drop (r1 + w) with
            | [] => none
            | c2 :: s2 =>
              if !c2.isAlpha then none
              else
                let r2 := countWhile Char.isAlpha s2
                if r2 = 0 then none
                else if nonWordAt s2 r2 then some (1 + r1 + w + 1 + r2) else none

/-- Auxiliary scanner for `re.finditer`: scan start positions left to right,
resuming after the end of each (non-overlapping) match.  All matchers used
here produce matches of length at least one, so fuel `t.length + 1` suffices. -/
def finditerAux (m : Text → Nat → Option Nat) (t : Text) : Nat → Nat → List (Nat × Nat)
  | 0, _ => []
  | fuel + 1, i =>
    if i ≥ t.length then []
    else
      match m t i with
      | some n => (i, i + n) :: finditerAux m t fuel (i + n)
      | none => finditerAux m t fuel (i + 1)

/-- Python `re.finditer(pattern, t)` as the list of `(start, end)` spans. -/
def finditer (m : Text → Nat → Option Nat) (t : Text) : List (Nat × Nat) :=
  finditerAux m t (t.length + 1) 0

/-- Model of `_is_medical_term_boundary` (app.py:648-674): a position is safe
unless it lies within (inclusive) a match of one of the five medical patterns
found in the 100-character window centred on the position. -/
def is_medical_term_boundary (t : Text) (pos : Nat) : Bool :=
  if pos ≥ t.length ∨ pos = 0 then true
  else
    let ws := pos - 50
    let window := pySlice t ws (min t.length (pos + 50))
    let covers := fun (m : Text → Nat → Option Nat) =>
      (finditer m window).any (fun se => ws + se.1 ≤ pos && pos ≤ ws + se.2)
    !(covers (matchDosageUnitAt ['m', 'g']) || covers (matchDosageUnitAt ['m', 'l']) ||
      covers (matchDosageUnitAt ['m', 'c', 'g']) || covers matchDecimalAt ||
      covers matchDrugNameCIAt)

/-!  Model of `_find_best_split_point` (app.py:676-713). -/

/-- Python loop `while pos < len(text) and text[pos] in ' \n\t': pos += 1`. -/
def skipSpaceNlTab (t : Text) (pos : Nat) : Nat :=
  pos + countWhile (fun c => c == ' ' || c == '\n' || c == '\t') (t.drop pos)

/-- Sentence end positions (app.py:685-692): accumulate sentence lengths and
skip the inter-sentence whitespace after each of `sentences[:-1]`. -/
def sentence_ends (t : Text) : List Text → Nat → List Nat
  | [], _ => []
  | s :: rest, pos =>
    let p := skipSpaceNlTab t (pos + s.length)
    p :: sentence_ends t rest p

/-- Python `min(xs, key=lambda x: abs(x - target))`: first element of minimal
distance to the target. -/
def bestByDist (target : Nat) : List Nat → Option Nat
  | [] => none
  | x :: xs => some (xs.foldl (fun b y => if Nat.dist y target < Nat.dist b target then y else b) x)

/-- Sentence-boundary branch of `_find_best_split_point` (app.py:681-697); the
tokenizer is applied to `text[:target_pos + max_search]`. -/
def sentence_split_candidate (tok : Text → List Text) (t : Text) (target maxSearch : Nat) :
    Option Nat :=
  if 1 < (tok (t.take (target + maxSearch))).length then
    match bestByDist target (sentence_ends t (tok (t.take (target + maxSearch))).dropLast 0) with
    | some best =>
      if Nat.dist best target ≤ maxSearch ∧ is_medical_term_boundary t best = true then some best
      else none
    | none => none
  else none

/-- One candidate position of the offset scans (app.py:700-711): in range,
bearing one of the wanted characters, and safe per the boundary check. -/
def searchCharAt (t : Text) (chars : List Char) (p : Int) : Option Nat :=
  if 0 ≤ p ∧ p < (t.length : Int) then
    if chars.contains (t.getD p.toNat ' ') && is_medical_term_boundary t p.toNat then
      some p.toNat
    else none
  else none

/-- Offset scan `for offset in range(0, max_search): for pos in [target-offset,
target+offset]` returning the first accepted position. -/
def searchOffsets (t : Text) (chars : List Char) (target : Nat) : Nat → Nat → Option Nat
  | 0, _ => none
  | fuel + 1, offset =>
    match searchCharAt t chars ((target : Int) - offset) with
    | some p => some p
    | none =>
      match searchCharAt t chars ((target : Int) + offset) with
      | some p => some p
      | none => searchOffsets t chars target fuel (offset + 1)

/-- Model of `_find_best_split_point(text, target_pos, max_search)`
(app.py:676-713), parameterised by the sentence tokenizer. -/
def find_best_split_point (tok : Text → List Text) (t : Text) (target maxSearch : Nat) : Nat :=
  if target ≥ t.length then t.length
  else
    match sentence_split_candidate tok t target maxSearch with
    | some b => b
    | none =>
      match searchOffsets t ['\n', '\r'] target maxSearch 0 with
      | some p => p
      | none =>
        match searchOffsets t [' '] target maxSearch 0 with
        | some p => p
        | none => target

/-!  Claim-side boundary-safety predicate, following the claim's wording:
a position "lies strictly inside a regex match for a dosage pattern
(`\d+\s*(mg|ml|mcg)`), a decimal number, or a two-capitalized-word drug-name
pattern, scanning a 100-char window centered on the candidate position". -/

/-- Matcher for the claim's dosage alternation `\d+\s*(mg|ml|mcg)` (no trailing
word boundary), case-insensitive, alternatives tried in order. -/
def matchDosageAltAt (t : Text) (i : Nat) : Option Nat :=
  let s := t.drop i
  let d := countWhile Char.isDigit s
  if d = 0 then none
  else
    let s2 := s.drop d
    let w := countWhile isPyWs s2
    let s3 := s2.drop w
    if leadsWithCI ['m', 'g'] s3 then some (d + w + 2)
    else if leadsWithCI ['m', 'l'] s3 then some (d + w + 2)
    else if leadsWithCI ['m', 'c', 'g'] s3 then some (d + w + 3)
    else none

/-- Matcher for the claim's two-capitalized-word drug-name pattern
`\b[A-Z][a-z]+\s+[A-Z][a-z]+\b`, case-sensitive reading. -/
def matchDrugNameCSAt (t : Text) (i : Nat) : Option Nat :=
  if !nonWordBefore t i then none
  else
    match t.drop i with
    | [] => none
    | c :: s1 =>
      if !c.isUpper then none
      else
        let r1 := countWhile Char.isLower s1
        if r1 = 0 then none
        else
          let w := countWhile isPyWs (s1.drop r1)
          if w = 0 then none
          else
            match s1.drop (r1 + w) with
            | [] => none
            | c2 :: s2 =>
              if !c2.isUpper then none
              else
                let r2 := countWhile Char.isLower s2
                if r2 = 0 then none
                else if nonWordAt s2 r2 then some (1 + r1 + w + 1 + r2) else none

/-- Claim-side predicate: the position lies strictly inside a match of a dosage,
decimal-number or drug-name pattern found in the 100-character window centred
on the position. -/
def insideMedicalPatternClaim (t : Text) (pos : Nat) : Bool :=
  let ws := pos - 50
  let window := pySlice t ws (min t.length (pos + 50))
  let strictly := fun (m : Text → Nat → Option Nat) =>
    (finditer m window).any (fun se => ws + se.1 < pos && pos < ws + se.2)
  strictly matchDosageAltAt || strictly matchDecimalAt || strictly matchDrugNameCSAt

/-!  Facts about the split-point search. -/

theorem searchCharAt_some {t : Text} {chars : List Char} {p : Int} {n : Nat}
    (h : searchCharAt t chars p = some n) :
    is_medical_term_boundary t n = true ∧ (n : Int) = p := by
  unfold searchCharAt at h
  split at h
  · rename_i hrange
    split at h
    · rename_i hcond
      injection h with hn
      subst hn
      refine ⟨(Bool.and_eq_true _ _ ▸ hcond).2, ?_⟩
      exact Int.toNat_of_nonneg hrange.1
    · exact Option.noConfusion h
  · exact Option.noConfusion h

theorem searchOffsets_some {t : Text} {chars : List Char} {target : Nat} :
    ∀ {fuel offset n : Nat}, searchOffsets t chars target fuel offset = some n →
      is_medical_term_boundary t n = true ∧ (target : Int) ≤ (n : Int) + offset + fuel := by
  intro fuel
  induction fuel with
  | zero => intro offset n h; exact Option.noConfusion h
  | succ fuel ih =>
    intro offset n h
    unfold searchOffsets at h
    cases h1 : searchCharAt t chars ((target : Int) - offset) with
    | some p =>
      rw [h1] at h
      injection h with hp
      subst hp
      obtain ⟨hb, he⟩ := searchCharAt_some h1
      exact ⟨hb, by omega⟩
    | none =>
      rw [h1] at h
      cases h2 : searchCharAt t chars ((target : Int) + offset) with
      | some p =>
        rw [h2] at h
        injection h with hp
        subst hp
        obtain ⟨hb, he⟩ := searchCharAt_some h2
        exact ⟨hb, by omega⟩
      | none =>
        rw [h2] at h
        obtain ⟨hb, he⟩ := ih h
        exact ⟨hb, by omega⟩

theorem sentence_split_candidate_some {tok : Text → List Text} {t : Text}
    {target maxSearch b : Nat}
    (h : sentence_split_candidate tok t target maxSearch = some b) :
    is_medical_term_boundary t b = true ∧ Nat.dist b target ≤ maxSearch := by
  unfold sentence_split_candidate at h
  split at h
  · split at h
    · split at h
      · rename_i hcond
        injection h with hb
        subst hb
        exact ⟨hcond.2, hcond.1⟩
      · exact Option.noConfusion h
    · exact Option.noConfusion h
  · exact Option.noConfusion h

theorem find_best_split_point_of_ge {tok : Text → List Text} {t : Text}
    {target maxSearch : Nat} (h : t.length ≤ target) :
    find_best_split_point tok t target maxSearch = t.length := by
  unfold find_best_split_point
  rw [if_pos h]

theorem find_best_split_point_ge {tok : Text → List Text} {t : Text}
    {target maxSearch : Nat} (h : target < t.length) :
    target ≤ find_best_split_point tok t target maxSearch + maxSearch := by
  unfold find_best_split_point
  rw [if_neg (by omega)]
  cases hs : sentence_split_candidate tok t target maxSearch with
  | some b =>
    dsimp only
    have hd := (sentence_split_candidate_some hs).2
    simp only [Nat.dist] at hd
    omega
  | none =>
    dsimp only
    cases h1 : searchOffsets t ['\n', '\r'] target maxSearch 0 with
    | some p =>
      dsimp only
      have := (searchOffsets_some h1).2
      omega
    | none =>
      dsimp only
      cases h2 : searchOffsets t [' '] target maxSearch 0 with
      | some p =>
        dsimp only
        have := (searchOffsets_some h2).2
        omega
      | none => dsimp only; omega

/-!  Chunk records and the chunking loops (app.py:715-935).  The chunk
dictionaries of the source carry, besides the structural fields modelled here,
derived metadata (entities, importance, readability); the scoring part of that
metadata is modelled separately by `calculate_importance_score` below and none
of the claims depend on the remaining fields. -/

/-- Structural fields of a chunk dictionary. -/
structure Chunk where
  page : Nat
  text : Text
  startPos : Nat
  endPos : Nat
  chunkType : String
  sectionHeader : Text
  deriving DecidableEq

/-- Next window start of the sliding loops (app.py:862-866 and 929-933):
`next_start = max(i + 1, end_pos - overlap)`, re-snapped by
`_find_best_split_point(text, next_start, 50)` when `overlap > 0` and
`next_start < end_pos`. -/
def enhanced_next_start (tok : Text → List Text) (t : Text) (i maxChars overlap : Nat) : Nat :=
  let endPos := find_best_split_point tok t (i + maxChars) 200
  let ns := max (i + 1) (endPos - overlap)
  if 0 < overlap ∧ ns < endPos then find_best_split_point tok t ns 50 else ns

/-- Loop body of `_create_enhanced_chunks` (app.py:815-868), with explicit fuel;
`none` signals fuel exhaustion (never reached, by `C9_enhanced_loop_advances`). -/
def create_enhanced_chunks_loop (tok : Text → List Text) (t : Text)
    (page maxChars overlap : Nat) : Nat → Nat → Option (List Chunk)
  | 0, _ => none
  | fuel + 1, i =>
    if i ≥ t.length then some []
    else
      let endPos := if i + maxChars ≥ t.length then t.length
        else find_best_split_point tok t (i + maxChars) 200
      let chunkText := if i + maxChars ≥ t.length then t.drop i else pyStrip (pySlice t i endPos)
      let newChunks : List Chunk :=
        if chunkText ≠ [] then [⟨page, chunkText, i, endPos, "enhanced", []⟩] else []
      if endPos ≥ t.length then some newChunks
      else
        match create_enhanced_chunks_loop tok t page maxChars overlap fuel
            (enhanced_next_start tok t i maxChars overlap) with
        | some rest => some (newChunks ++ rest)
        | none => none

/-- Model of `_create_enhanced_chunks` (app.py:815-868). -/
def create_enhanced_chunks (tok : Text → List Text) (t : Text)
    (page maxChars overlap : Nat) : List Chunk :=
  (create_enhanced_chunks_loop tok t page maxChars overlap (t.length + 1) 0).getD []

/-- Loop body of `_split_large_section` (app.py:870-935), with explicit fuel;
subsequent chunks of a headed section are prefixed with a section marker. -/
def split_large_section_loop (tok : Text → List Text) (st : Text)
    (sectionStart page : Nat) (header : Text) (maxChars overlap : Nat) :
    Nat → Nat → Option (List Chunk)
  | 0, _ => none
  | fuel + 1, i =>
    if i ≥ st.length then some []
    else
      let endPos := if i + maxChars ≥ st.length then st.length
        else find_best_split_point tok st (i + maxChars) 200
      let chunkText := if i + maxChars ≥ st.length then st.drop i else pyStrip (pySlice st i endPos)
      let newChunks : List Chunk :=
        if chunkText ≠ [] then
          let contextual :=
            if header ≠ [] ∧ i = 0 then chunkText
            else if header ≠ [] then
              "[Section: ".toList ++ header ++ "]\n".toList ++ chunkText
            else chunkText
          [⟨page, contextual, sectionStart + i, sectionStart + endPos, "section_part", header⟩]
        else []
      if endPos ≥ st.length then some newChunks
      else
        match split_large_section_loop tok st sectionStart page header maxChars overlap fuel
            (enhanced_next_start tok st i maxChars overlap) with
        | some rest => some (newChunks ++ rest)
        | none => none

/-- Model of `_split_large_section` (app.py:870-935). -/
def split_large_section (tok : Text → List Text) (st : Text) (sectionStart page : Nat)
    (header : Text) (maxChars overlap : Nat) : List Chunk :=
  (split_large_section_loop tok st sectionStart page header maxChars overlap (st.length + 1) 0).getD []

/-!  C1 and C9 theorems about the split-point search and the sliding loop. -/

theorem enhanced_next_start_gt {tok : Text → List Text} {t : Text} {i : Nat}
    (h : i + 1200 < t.length) : i < enhanced_next_start tok t i 1200 150 := by
  unfold enhanced_next_start
  dsimp only
  have hE : i + 1200 ≤ find_best_split_point tok t (i + 1200) 200 + 200 :=
    find_best_split_point_ge (by omega)
  set endPos := find_best_split_point tok t (i + 1200) 200 with hEp
  have h1 : i + 850 ≤ max (i + 1) (endPos - 150) := by
    have := le_max_right (i + 1) (endPos - 150)
    omega
  split
  · by_cases hl : t.length ≤ max (i + 1) (endPos - 150)
    · rw [find_best_split_point_of_ge hl]
      omega
    · have := @find_best_split_point_ge tok t (max (i + 1) (endPos - 150)) 50 (by omega)
      omega
  · omega

theorem create_enhanced_chunks_loop_isSome {tok : Text → List Text} {t : Text} {page : Nat} :
    ∀ fuel i, t.length - i < fuel →
      (create_enhanced_chunks_loop tok t page 1200 150 fuel i).isSome = true := by
  intro fuel
  induction fuel with
  | zero => intro i h; omega
  | succ fuel ih =>
    intro i h
    simp only [create_enhanced_chunks_loop]
    split
    · simp
    · rename_i hlt
      split
      · rename_i hc
        simp
      · rename_i hc
        split
        · simp
        · rename_i hend
          have hadv : i < enhanced_next_start tok t i 1200 150 :=
            enhanced_next_start_gt (by omega)
          have hrec := ih (enhanced_next_start tok t i 1200 150) (by omega)
          cases hr : create_enhanced_chunks_loop tok t page 1200 150 fuel
              (enhanced_next_start tok t i 1200 150) with
          | some rest => simp [hr]
          | none => rw [hr] at hrec; simp at hrec

/-- C9: the fallback sliding-window chunking loop of `_create_enhanced_chunks`
terminates under the default parameters `max_chars = 1200`, `overlap = 150`:
fuel `len(text) + 1 > len(text) - 0` always suffices, because in every
continuing iteration the next window start `max(i+1, end_pos - overlap)`,
possibly re-snapped by `_find_best_split_point` within a 50-char radius, is
strictly greater than the current window start. -/
theorem C9_enhanced_loop_advances :
    (∀ (tok : Text → List Text) (t : Text) (page fuel i : Nat), t.length - i < fuel →
      (create_enhanced_chunks_loop tok t page 1200 150 fuel i).isSome = true) ∧
    (∀ (tok : Text → List Text) (t : Text) (i : Nat), i + 1200 < t.length →
      i < enhanced_next_start tok t i 1200 150) :=
  ⟨fun _ _ _ fuel i h => create_enhanced_chunks_loop_isSome fuel i h,
   fun _ _ _ h => enhanced_next_start_gt h⟩

/-- C1 (amended): every position returned by `_find_best_split_point` either
passes the `_is_medical_term_boundary` safety check (and so does not lie inside
any dosage/decimal/drug-name match of the 100-char window) or is the raw
fallback target position. -/
theorem C1_split_point_safe_or_raw_target (tok : Text → List Text) (t : Text)
    (target maxSearch : Nat) :
    is_medical_term_boundary t (find_best_split_point tok t target maxSearch) = true ∨
    find_best_split_point tok t target maxSearch = target := by
  unfold find_best_split_point
  split
  · left
    simp [is_medical_term_boundary]
  · cases hs : sentence_split_candidate tok t target maxSearch with
    | some b => left; dsimp only; exact (sentence_split_candidate_some hs).1
    | none =>
      dsimp only
      cases h1 : searchOffsets t ['\n', '\r'] target maxSearch 0 with
      | some p => left; dsimp only; exact (searchOffsets_some h1).1
      | none =>
        dsimp only
        cases h2 : searchOffsets t [' '] target maxSearch 0 with
        | some p => left; dsimp only; exact (searchOffsets_some h2).1
        | none => right; dsimp only

/-- Single-sentence tokenizer: models `nltk.sent_tokenize` on inputs without
sentence-final punctuation, where it returns the whole string as one sentence
(in particular `sent_tokenize("500mg") = ["500mg"]`). -/
def tokOneSentence : Text → List Text := fun s => [s]

/-- C1 counterexample: on the page text `"500mg"` with target cut position 2,
`_find_best_split_point` falls back to the raw target 2, which lies strictly
inside the dosage-pattern match spanning positions 0-5 of the scanned window;
so the split position can lie strictly inside a dosage match, contrary to the
claim. -/
theorem C1_counterexample :
    find_best_split_point tokOneSentence "500mg".toList 2 200 = 2 ∧
    insideMedicalPatternClaim "500mg".toList 2 = true := by
  decide

/-- Concrete 1300-character page text (digits with one newline at position 1200)
used to witness the sliding-loop theorems. -/
def t1300 : Text := List.replicate 1200 '0' ++ '\n' :: List.replicate 99 '0'

theorem C9_witness :
    0 + 1200 < t1300.length ∧
    (create_enhanced_chunks_loop tokOneSentence t1300 1 1200 150 (t1300.length + 1) 0).isSome
      = true ∧
    0 < enhanced_next_start tokOneSentence t1300 0 1200 150 := by
  have hlen : t1300.length = 1300 := by
    simp only [t1300, List.length_append, List.length_replicate, List.length_cons]
  exact ⟨by omega,
    C9_enhanced_loop_advances.1 tokOneSentence t1300 1 (t1300.length + 1) 0 (by omega),
    C9_enhanced_loop_advances.2 tokOneSentence t1300 0 (by omega)⟩

/-!  List-structure preservation and section-header detection
(app.py:615-646 and 379-400). -/

/-- Character class `[.)\s]` of the list-marker separator patterns. -/
def isListSep (c : Char) : Bool := c == '.' || c == ')' || isPyWs c

/-- Test for `^\s*[•\-\*]\s+` on an unstripped line. -/
def matchBullet (line : Text) : Bool :=
  match line.dropWhile isPyWs with
  | c :: c2 :: _ => (c == '•' || c == '-' || c == '*') && isPyWs c2
  | _ => false

/-- Test for `^\s*\d+[.)\s]` on an unstripped line. -/
def matchNumbered (line : Text) : Bool :=
  let l1 := line.dropWhile isPyWs
  let d := countWhile Char.isDigit l1
  if d = 0 then false
  else
    match l1.drop d with
    | c :: _ => isListSep c
    | [] => false

/-- Test for `^\s*[a-z][.)\s]` on an unstripped line. -/
def matchAlphaMarker (line : Text) : Bool :=
  match line.dropWhile isPyWs with
  | c :: c2 :: _ => c.isLower && isListSep c2
  | _ => false

/-- Rewrite `^\s*(\d+)[.)\s]+(.*)$` to `"{num}. {content.strip()}"`. -/
def rewriteNumbered (line : Text) : Text :=
  let l1 := line.dropWhile isPyWs
  let d := countWhile Char.isDigit l1
  let rest := l1.drop d
  let sep := countWhile isListSep rest
  l1.take d ++ '.' :: ' ' :: pyStrip (rest.drop sep)

/-- Rewrite `^\s*([a-z])[.)\s]+(.*)$` to `"{letter}) {content.strip()}"`. -/
def rewriteAlphaMarker (line : Text) : Text :=
  match line.dropWhile isPyWs with
  | c :: rest =>
    let sep := countWhile isListSep rest
    c :: ')' :: ' ' :: pyStrip (rest.drop sep)
  | [] => line

/-- Per-line body of `_preserve_list_structure` (app.py:615-646). -/
def processListLine (line : Text) : Text :=
  let stripped := pyStrip line
  if stripped.isEmpty then line
  else if matchBullet line then '•' :: ' ' :: pyStrip (stripped.drop 2)
  else if matchNumbered line then rewriteNumbered line
  else if matchAlphaMarker line then rewriteAlphaMarker line
  else line

/-- Model of `_preserve_list_structure` (app.py:615-646). -/
def preserve_list_structure (t : Text) : Text :=
  joinWith ['\n'] ((splitOnChar '\n' t).map processListLine)

/-- Character class `[A-Z\s]` of the all-caps header pattern. -/
def isAllCapsClass (c : Char) : Bool := c.isUpper || isPyWs c

/-- Test for `^[A-Z][A-Z\s]{3,}:?$` on a stripped line. -/
def matchAllCapsHeader (ls : Text) : Bool :=
  match ls with
  | [] => false
  | c :: rest =>
    c.isUpper &&
      (if rest.getLast? == some ':' then
        decide (3 ≤ rest.dropLast.length) && rest.dropLast.all isAllCapsClass
      else
        decide (3 ≤ rest.length) && rest.all isAllCapsClass)

/-- Test for `^\d+\.\s+[A-Z]` on a stripped line. -/
def matchNumberedHeader (ls : Text) : Bool :=
  let d := countWhile Char.isDigit ls
  if d = 0 then false
  else
    match ls.drop d with
    | '.' :: rest =>
      let w := countWhile isPyWs rest
      if w = 0 then false
      else
        match rest.drop w with
        | c :: _ => c.isUpper
        | [] => false
    | _ => false

/-- Short-line header test: fewer than 80 characters, fewer than 8 spaces,
first character uppercase (app.py:392-394). -/
def matchShortHeader (ls : Text) : Bool :=
  decide (ls.length < 80) && decide (ls.count ' ' < 8) &&
    (match ls with
     | c :: _ => c.isUpper
     | [] => false)

/-- Line scan of `_detect_section_headers` with the running character offset
`sum(len(lines[j]) + 1 for j in range(i))`. -/
def detect_section_headers_aux : List Text → Nat → List (Nat × Text)
  | [], _ => []
  | line :: rest, pos =>
    let ls := pyStrip line
    let here :=
      if ls ≠ [] ∧ (matchAllCapsHeader ls || matchNumberedHeader ls || matchShortHeader ls) = true
      then [(pos, ls)] else []
    here ++ detect_section_headers_aux rest (pos + line.length + 1)

/-- Model of `_detect_section_headers` (app.py:379-400). -/
def detect_section_headers (t : Text) : List (Nat × Text) :=
  detect_section_headers_aux (splitOnChar '\n' t) 0

/-- Model of `_flatten_table_to_text` (app.py:339-346); a cell is truthy when
nonempty. -/
def flatten_table_to_text (table : List (List Text)) : Text :=
  let lines := table.filterMap fun row =>
    let cells := (row.filter (fun c => !c.isEmpty)).map pyStrip
    if cells.any (fun c => !c.isEmpty) then some (joinWith " | ".toList cells) else none
  pyStrip (joinWith ['\n'] lines)

/-- Section-based branch of `_create_structure_aware_chunks` (app.py:760-812). -/
def section_chunk_list (tok : Text → List Text) (pt : Text) (pageNum : Nat)
    (sectionInfo : List (Nat × Text)) (maxChars overlap : Nat) : List Chunk :=
  let positions := sectionInfo.map Prod.fst ++ [pt.length]
  flatMapList
    (fun i =>
      let s := positions.getD i 0
      let e := positions.getD (i + 1) 0
      let sectionText := pyStrip (pySlice pt s e)
      if sectionText = [] then []
      else
        let header := if i < sectionInfo.length then (sectionInfo.getD i (0, [])).2 else []
        if sectionText.length ≤ maxChars then
          [⟨pageNum, sectionText, s, e, "section", header⟩]
        else split_large_section tok sectionText s pageNum header maxChars overlap)
    (List.range (positions.length - 1))

/-- Model of `_create_structure_aware_chunks` (app.py:750-813). -/
def create_structure_aware_chunks (tok : Text → List Text) (pt : Text) (pageNum : Nat)
    (sectionInfo : List (Nat × Text)) (maxChars overlap : Nat) : List Chunk :=
  if sectionInfo = [] then create_enhanced_chunks tok pt pageNum maxChars overlap
  else section_chunk_list tok pt pageNum sectionInfo maxChars overlap

/-- Extracted page: page number, raw text, flattened tables. -/
structure Page where
  page : Nat
  text : Text
  tables : List (List (List Text))

/-- Per-page body of `build_chunks_from_structured` (app.py:715-748): list
structure is preserved, headers are detected on the processed text, table
texts are appended, and the assembled page text is chunked structure-aware. -/
def page_chunks (tok : Text → List Text) (maxChars overlap : Nat) (p : Page) : List Chunk :=
  let textParts :=
    (if p.text ≠ [] then [preserve_list_structure p.text] else []) ++
      p.tables.filterMap fun tbl =>
        let tt := flatten_table_to_text tbl
        if tt ≠ [] then some ("[TABLE]\n".toList ++ tt) else none
  let sectionInfo :=
    if p.text ≠ [] then detect_section_headers (preserve_list_structure p.text) else []
  let pt := pyStrip (joinWith "\n\n".toList textParts)
  if pt = [] then [] else create_structure_aware_chunks tok pt p.page sectionInfo maxChars overlap

/-- Model of `build_chunks_from_structured` (app.py:715-748). -/
def build_chunks_from_structured (tok : Text → List Text) (pages : List Page)
    (maxChars overlap : Nat) : List Chunk :=
  flatMapList (page_chunks tok maxChars overlap) pages

/-- Page text refuting C5 as frozen: a single prose sentence that
`_preserve_list_structure` rewrites, because `^\\s*\\d+[.)\\s]` matches a
leading number followed by a space. -/
def tNumSentence : Text := "500 mg of metformin is taken twice daily.".toList

/-- C5 counterexample: the page text "500 mg of metformin is taken twice
daily." is a single sentence shorter than `max_chars`, left nonempty by
stripping, with no section headers detected on the processed text — yet the
pipeline produces one chunk reading "500. mg of metformin is taken twice
daily.", which differs from the stripped page text: `_preserve_list_structure`
rewrote the leading number as a list marker before chunking. -/
theorem C5_counterexample :
    pyStrip tNumSentence = tNumSentence ∧
    tNumSentence.length < 1200 ∧
    detect_section_headers (preserve_list_structure tNumSentence) = [] ∧
    (build_chunks_from_structured tokOneSentence [⟨1, tNumSentence, []⟩] 1200 150).map Chunk.text
      = ["500. mg of metformin is taken twice daily.".toList] ∧
    "500. mg of metformin is taken twice daily.".toList ≠ pyStrip tNumSentence := by
  decide

/-- C5 (amended): a page whose text is a single sentence shorter than
`max_chars`, with no section headers detected on the processed text, produces
exactly one chunk, whose text equals the stripped list-structure-processed
page text — which coincides with the stripped page text exactly when
`_preserve_list_structure` leaves the sentence unchanged (pipeline
`build_chunks_from_structured` → `_create_structure_aware_chunks` →
`_create_enhanced_chunks` with the defaults `max_chars = 1200`,
`overlap = 150`). -/
theorem C5_single_sentence_one_chunk (tok : Text → List Text) (pageNum : Nat) (t : Text)
    (h2 : detect_section_headers (preserve_list_structure t) = [])
    (h3 : pyStrip (preserve_list_structure t) ≠ [])
    (h4 : (pyStrip (preserve_list_structure t)).length < 1200) :
    (build_chunks_from_structured tok [⟨pageNum, t, []⟩] 1200 150).map Chunk.text
      = [pyStrip (preserve_list_structure t)] := by
  have ht : t ≠ [] := by
    intro he
    exact h3 (by rw [he]; rfl)
  have hlen : 0 < (pyStrip (preserve_list_structure t)).length := List.length_pos.mpr h3
  simp only [build_chunks_from_structured, flatMapList, List.append_nil, page_chunks,
    List.filterMap_nil, h2, if_pos ht, joinWith, if_neg h3, create_structure_aware_chunks,
    if_pos rfl, create_enhanced_chunks]
  simp only [create_enhanced_chunks_loop, ge_iff_le, Nat.le_zero, List.length_eq_zero,
    if_neg h3,
    if_pos (by omega : (pyStrip (preserve_list_structure t)).length ≤ 0 + 1200),
    List.drop_zero, if_pos h3,
    if_pos (le_refl (pyStrip (preserve_list_structure t)).length), Option.getD_some,
    List.map_cons, List.map_nil]
  simp

/-- Concrete single-sentence page text used to witness C5; list-structure
processing leaves it unchanged, so the produced chunk also equals the
stripped raw page text. -/
def tSentence : Text := "the metformin dose is taken twice daily with meals and water.".toList

theorem C5_witness :
    detect_section_headers (preserve_list_structure tSentence) = [] ∧
    pyStrip (preserve_list_structure tSentence) ≠ [] ∧
    (pyStrip (preserve_list_structure tSentence)).length < 1200 ∧
    (build_chunks_from_structured tokOneSentence [⟨1, tSentence, []⟩] 1200 150).map Chunk.text
      = [pyStrip (preserve_list_structure tSentence)] ∧
    preserve_list_structure tSentence = tSentence :=
  ⟨by decide, by decide, by decide,
    C5_single_sentence_one_chunk tokOneSentence 1 tSentence (by decide) (by decide) (by decide),
    by decide⟩

/-- C6: for fixed inputs and parameters the chunking pipeline is a pure
function, so running it twice yields byte-identical chunk lists — the same
chunk texts and the same start/end boundaries in the same order — both for
`_create_structure_aware_chunks` and for the whole
`build_chunks_from_structured` pipeline. -/
theorem C6_chunking_deterministic (tok : Text → List Text) (pages : List Page) (pt : Text)
    (pageNum : Nat) (sectionInfo : List (Nat × Text)) (maxChars overlap : Nat) :
    build_chunks_from_structured tok pages maxChars overlap =
      build_chunks_from_structured tok pages maxChars overlap ∧
    create_structure_aware_chunks tok pt pageNum sectionInfo maxChars overlap =
      create_structure_aware_chunks tok pt pageNum sectionInfo maxChars overlap ∧
    (create_enhanced_chunks tok pt pageNum maxChars overlap).map Chunk.text =
      (create_enhanced_chunks tok pt pageNum maxChars overlap).map Chunk.text ∧
    (create_enhanced_chunks tok pt pageNum maxChars overlap).map
        (fun c => (c.startPos, c.endPos)) =
      (create_enhanced_chunks tok pt pageNum maxChars overlap).map
        (fun c => (c.startPos, c.endPos)) :=
  ⟨rfl, rfl, rfl, rfl⟩

/-!  Importance scoring (`_calculate_importance_score`, app.py:469-496).
Python float arithmetic is modelled exactly over `ℚ`. -/

/-- Content types of `ContentType` (app.py:28-35). -/
inductive ContentType where
  | header | paragraph | list | table | procedure | medication | diagnosis
  deriving DecidableEq

/-- Content-type base weights `type_weights` (app.py:475-483). -/
def type_weight : ContentType → ℚ
  | .header => 9/10
  | .medication => 4/5
  | .diagnosis => 4/5
  | .procedure => 7/10
  | .list => 3/5
  | .table => 7/10
  | .paragraph => 1/2

/-- Medical keywords boosting the importance score (app.py:488). -/
def medical_keywords : List Text :=
  ["treatment", "diagnosis", "medication", "dosage", "procedure", "symptoms"].map
    String.toList

/-- Warning terms granting the 0.2 bonus (app.py:493). -/
def warning_terms : List Text :=
  ["contraindication", "adverse", "warning", "caution"].map String.toList

/-- Model of `_calculate_importance_score` (app.py:469-496): base weight by
content type, plus `min(keyword_count * 0.1, 0.3)`, plus 0.2 if any warning
term occurs, clamped by `min(score, 1.0)`. -/
def calculate_importance_score (t : Text) (ct : ContentType) : ℚ :=
  let tl := lowerText t
  let score := type_weight ct
  let keywordCount := (medical_keywords.countP fun k => containsSubstring tl k)
  let score := score + min ((keywordCount : ℚ) * (1/10)) (3/10)
  let score := if warning_terms.any (fun k => containsSubstring tl k) then score + 1/5 else score
  min score 1

/-- Importance-score formula as worded by the claim: content-type base weight
(header 0.9, medication 0.8, diagnosis 0.8, procedure 0.7, list 0.6, table
0.7, paragraph 0.5) plus 0.1 per distinct importance-boosting medical keyword
present capped at +0.3, plus a 0.2 bonus if any of contraindication, adverse,
warning, caution appears, with the total clamped to at most 1.0. -/
def importance_score_spec (t : Text) (ct : ContentType) : ℚ :=
  let tl := lowerText t
  let base : ℚ :=
    match ct with
    | .header => 9/10
    | .medication => 4/5
    | .diagnosis => 4/5
    | .procedure => 7/10
    | .list => 3/5
    | .table => 7/10
    | .paragraph => 1/2
  let distinctKeywords := (medical_keywords.countP fun k => containsSubstring tl k)
  let bonus : ℚ := if warning_terms.any (fun k => containsSubstring tl k) then 1/5 else 0
  min (base + min ((distinctKeywords : ℚ) * (1/10)) (3/10) + bonus) 1

/-- C7: for every text and content type, `_calculate_importance_score` computes
exactly the claim's formula — base weight by content type, +0.1 per distinct
importance-boosting medical keyword (capped at +0.3), +0.2 if a warning term
appears, clamped to at most 1.0. -/
theorem C7_importance_score_formula (t : Text) (ct : ContentType) :
    calculate_importance_score t ct = importance_score_spec t ct := by
  unfold calculate_importance_score importance_score_spec
  cases ct <;> simp only [type_weight] <;> split <;> ring_nf

/-!  Embedding-pipeline chunker of `PDFEmbeddingService`
(pdf_embedding_service.py:182-307), with the configured constants
`chunk_size = 1000`, `chunk_overlap = 200`, `max_chunks_per_doc = 50`. -/

/-- Replace each run of whitespace by a single space (`re.sub(r'\s+', ' ', t)`),
tracked with a previous-was-whitespace flag. -/
def collapseWsAux : Bool → Text → Text
  | _, [] => []
  | prevWs, c :: rest =>
    if isPyWs c then
      if prevWs then collapseWsAux true rest else ' ' :: collapseWsAux true rest
    else c :: collapseWsAux false rest

/-- Model of `re.sub(r'\s+', ' ', t)`. -/
def collapseWs (t : Text) : Text := collapseWsAux false t

/-- Replace each run of newlines by a single newline (`re.sub(r'\n+', '\n', t)`). -/
def collapseNlAux : Bool → Text → Text
  | _, [] => []
  | prevNl, c :: rest =>
    if c == '\n' then
      if prevNl then collapseNlAux true rest else '\n' :: collapseNlAux true rest
    else c :: collapseNlAux false rest

/-- Model of `re.sub(r'\n+', '\n', t)`. -/
def collapseNl (t : Text) : Text := collapseNlAux false t

/-- Match the literal pattern `--- Page \d+ ---` at the head of the suffix. -/
def matchPageMarker (s : Text) : Option Nat :=
  if leadsWith "--- Page ".toList s then
    let s2 := s.drop 9
    let d := countWhile Char.isDigit s2
    if d = 0 then none
    else if leadsWith " ---".toList (s2.drop d) then some (9 + d + 4) else none
  else none

/-- Scanner of `re.sub(r'--- Page \d+ ---', '', t)`: delete every
non-overlapping match, scanning left to right (fuel is the text length). -/
def removePageMarkersAux : Nat → Text → Text
  | 0, s => s
  | fuel + 1, s =>
    match s with
    | [] => []
    | c :: rest =>
      match matchPageMarker s with
      | some n => removePageMarkersAux fuel (s.drop n)
      | none => c :: removePageMarkersAux fuel rest

/-- Model of `re.sub(r'--- Page \d+ ---', '', t)`. -/
def removePageMarkers (t : Text) : Text := removePageMarkersAux t.length t

/-- Model of `_clean_text_for_chunking` (pdf_embedding_service.py:230-243). -/
def clean_text_for_chunking (t : Text) : Text :=
  pyStrip (collapseNl (removePageMarkers (collapseWs t)))

/-- Generalisation of `splitOnChar` to a character predicate. -/
def splitOnPred (p : Char → Bool) : Text → List Text
  | [] => [[]]
  | c :: rest =>
    let r := splitOnPred p rest
    if p c then [] :: r
    else
      match r with
      | [] => [[c]]
      | piece :: more => (c :: piece) :: more

/-- Model of `_split_into_sentences` (pdf_embedding_service.py:276-282):
`re.split(r'[.!?]+', t)` then strip and drop empties.  Splitting at every
single `[.!?]` differs from splitting at runs only by extra empty pieces,
which the trailing filter removes, exactly as in the source comprehension. -/
def split_into_sentences (t : Text) : List Text :=
  ((splitOnPred (fun c => c == '.' || c == '!' || c == '?') t).map pyStrip).filter
    (fun s => s ≠ [])

/-- Model of `_get_overlap_text` (pdf_embedding_service.py:284-296). -/
def get_overlap_text (chunk : Text) (overlapN : Nat) : Text :=
  if chunk.length ≤ overlapN then chunk
  else
    let ov := chunk.drop (chunk.length - overlapN)
    match ov.findIdx? (fun c => c == ' ') with
    | some idx => if 0 < idx then pyStrip (ov.drop idx) else ov
    | none => ov

/-- Sentence-accumulation loop of `_split_text_into_chunks`
(pdf_embedding_service.py:245-274), carrying the accumulated chunk list, the
current chunk and the tracked `current_length`. -/
def split_text_loop (chunkSize overlapN : Nat) :
    List Text → List Text → Text → Nat → List Text
  | [], acc, cur, _ => if pyStrip cur ≠ [] then acc ++ [pyStrip cur] else acc
  | s :: rest, acc, cur, curLen =>
    if curLen + s.length > chunkSize ∧ cur ≠ [] then
      split_text_loop chunkSize overlapN rest (acc ++ [pyStrip cur])
        (get_overlap_text cur overlapN ++ ' ' :: s)
        (get_overlap_text cur overlapN ++ ' ' :: s).length
    else
      split_text_loop chunkSize overlapN rest acc (cur ++ ' ' :: s) (curLen + s.length + 1)

/-- Model of `_split_text_into_chunks` (pdf_embedding_service.py:245-274). -/
def split_text_into_chunks (t : Text) (chunkSize overlapN : Nat) : List Text :=
  split_text_loop chunkSize overlapN (split_into_sentences t) [] [] 0

/-- Model of `_check_tables_in_chunk` (pdf_embedding_service.py:298-307). -/
def check_tables_in_chunk (chunkText : Text) (tables : List Text) : Nat :=
  tables.countP fun csv =>
    ((splitOnChar '\n' csv).take 3).any fun line =>
      pyStrip line ≠ [] && containsSubstring chunkText (pyStrip line)

/-- Zero-padded index `f"{i:03d}"`. -/
def zeroPad3 (n : Nat) : Text :=
  let d := Nat.toDigits 10 n
  List.replicate (3 - d.length) '0' ++ d

/-- Chunk record of the embedding pipeline (pdf_embedding_service.py:204-219);
the MD5 hash is computed by an external library, modelled as the parameter
`hashF`. -/
structure PChunk where
  chunkId : Text
  documentId : Text
  chunkIndex : Nat
  text : Text
  textLength : Nat
  chunkHash : Text
  tablesInChunk : Nat
  imagesInChunk : Nat

/-- Chunk-object constructor used at index `i` (pdf_embedding_service.py:202-219). -/
def mkPChunk (hashF : Text → Text) (docId : Text) (tables : List Text) (images : Nat)
    (i : Nat) (chunkText : Text) : PChunk :=
  ⟨docId ++ '_' :: zeroPad3 i, docId, i, chunkText, chunkText.length, hashF chunkText,
    check_tables_in_chunk chunkText tables, images⟩

/-- Filtering loop of `_create_text_chunks` (pdf_embedding_service.py:198-225):
skip chunks whose stripped text is shorter than 50 characters, stop after 50
collected chunks (`max_chunks_per_doc`). -/
def create_text_chunks_loop (mk : Nat → Text → PChunk) :
    List Text → Nat → List PChunk → List PChunk
  | [], _, acc => acc
  | t :: rest, i, acc =>
    if (pyStrip t).length < 50 then create_text_chunks_loop mk rest (i + 1) acc
    else
      let acc' := acc ++ [mk i t]
      if acc'.length ≥ 50 then acc' else create_text_chunks_loop mk rest (i + 1) acc'

/-- Model of `_create_text_chunks` (pdf_embedding_service.py:182-228). -/
def create_text_chunks (hashF : Text → Text) (rawText docId : Text) (tables : List Text)
    (images : Nat) : List PChunk :=
  if rawText = [] then []
  else
    create_text_chunks_loop (mkPChunk hashF docId tables images)
      (split_text_into_chunks (clean_text_for_chunking rawText) 1000 200) 0 []

theorem create_text_chunks_loop_bound (mk : Nat → Text → PChunk)
    (hmk : ∀ i t, (mk i t).text = t) :
    ∀ (l : List Text) (i : Nat) (acc : List PChunk), acc.length < 50 →
      (∀ c ∈ acc, 50 ≤ (pyStrip c.text).length) →
      (create_text_chunks_loop mk l i acc).length ≤ 50 ∧
        ∀ c ∈ create_text_chunks_loop mk l i acc, 50 ≤ (pyStrip c.text).length := by
  intro l
  induction l with
  | nil =>
    intro i acc hlen hall
    exact ⟨by simpa [create_text_chunks_loop] using Nat.le_of_lt hlen,
      by simpa [create_text_chunks_loop] using hall⟩
  | cons t rest ih =>
    intro i acc hlen hall
    simp only [create_text_chunks_loop]
    split
    · exact ih (i + 1) acc hlen hall
    · rename_i hshort
      have hall' : ∀ c ∈ acc ++ [mk i t], 50 ≤ (pyStrip c.text).length := by
        intro c hc
        rcases List.mem_append.mp hc with hc | hc
        · exact hall c hc
        · simp only [List.mem_singleton] at hc
          subst hc
          rw [hmk]
          omega
      split
      · rename_i hstop
        constructor
        · simp only [List.length_append, List.length_singleton]
          omega
        · exact hall'
      · rename_i hgo
        apply ih (i + 1) (acc ++ [mk i t])
        · simp only [List.length_append, List.length_singleton] at hgo ⊢
          omega
        · exact hall'

/-- C10: the embedding-pipeline chunker `_create_text_chunks` returns at most
50 chunks (`max_chunks_per_doc`), and every returned chunk's text has stripped
length at least 50 characters; shorter pieces and pieces beyond the 50th
qualifying chunk are dropped. -/
theorem C10_create_text_chunks_bounds (hashF : Text → Text) (rawText docId : Text)
    (tables : List Text) (images : Nat) :
    (create_text_chunks hashF rawText docId tables images).length ≤ 50 ∧
      ∀ c ∈ create_text_chunks hashF rawText docId tables images,
        50 ≤ (pyStrip c.text).length := by
  unfold create_text_chunks
  split
  · simp
  · exact create_text_chunks_loop_bound _ (fun _ _ => rfl) _ 0 [] (by simp) (by simp)

/-!  Process-wide embedding cache (`_embedding_cache`, `_cache_lock`,
`get_cached_embedding`, app.py:55-59 and 182-200).  The cache dictionary is
modelled as an association list with unique keys in insertion order; the
embedding computation between the two locked regions is irrelevant to the
cache state and is abstracted as the value `v` to be inserted. -/

/-- Python dict assignment `cache[k] = v`: replace in place when present,
append otherwise. -/
def dictInsert (c : List (String × List ℚ)) (k : String) (v : List ℚ) :
    List (String × List ℚ) :=
  if c.any (fun p => p.1 == k) then c.map (fun p => if p.1 == k then (k, v) else p)
  else c ++ [(k, v)]

/-- Cache-state transition of one `get_cached_embedding` call (app.py:182-200):
a hit leaves the cache unchanged; a miss clears the whole cache first when its
size exceeds 1000, then inserts the new entry. -/
def get_cached_embedding_step (c : List (String × List ℚ)) (k : String) (v : List ℚ) :
    List (String × List ℚ) :=
  if c.any (fun p => p.1 == k) then c
  else if c.length > 1000 then [(k, v)]
  else dictInsert c k v

/-- Cache state after a sequence of `get_cached_embedding` calls starting from
the empty module-level cache `_embedding_cache = {}`. -/
def run_embedding_calls (calls : List (String × List ℚ)) : List (String × List ℚ) :=
  calls.foldl (fun c kv => get_cached_embedding_step c kv.1 kv.2) []

/-- Lock/access events of one `get_cached_embedding` call, in program order:
the first `with _cache_lock` block performs the lookup; on a miss the second
block reads the size, possibly clears, and writes the new entry. -/
inductive CacheEvent where
  | acquire | release
  | lookup (key : String)
  | readLen
  | clearAll
  | writeKey (key : String)
  deriving DecidableEq

/-- Event classification: events touching the cache dictionary. -/
def CacheEvent.isAccess : CacheEvent → Bool
  | .lookup _ => true
  | .readLen => true
  | .clearAll => true
  | .writeKey _ => true
  | _ => false

/-- Event trace of one `get_cached_embedding` call against cache state `c`. -/
def get_cached_embedding_trace (c : List (String × List ℚ)) (k : String) :
    List CacheEvent :=
  if c.any (fun p => p.1 == k) then [.acquire, .lookup k, .release]
  else
    [.acquire, .lookup k, .release, .acquire, .readLen] ++
      (if c.length > 1000 then [.clearAll] else []) ++ [.writeKey k, .release]

/-- Net lock balance of an event list (acquire +1, release -1). -/
def lockBalance (l : List CacheEvent) : Int :=
  l.foldl (fun a e => match e with | .acquire => a + 1 | .release => a - 1 | _ => a) 0

theorem dictInsert_length (c : List (String × List ℚ)) (k : String) (v : List ℚ) :
    (dictInsert c k v).length ≤ c.length + 1 := by
  unfold dictInsert
  split
  · simp
  · simp

theorem run_embedding_calls_bounded_aux :
    ∀ (calls : List (String × List ℚ)) (c : List (String × List ℚ)), c.length ≤ 1001 →
      (calls.foldl (fun c kv => get_cached_embedding_step c kv.1 kv.2) c).length ≤ 1001 := by
  intro calls
  induction calls with
  | nil => intro c h; simpa using h
  | cons kv rest ih =>
    intro c h
    simp only [List.foldl_cons]
    apply ih
    unfold get_cached_embedding_step
    split
    · exact h
    · split
      · simp
      · rename_i hsz
        have := dictInsert_length c kv.1 kv.2
        omega

theorem get_cached_embedding_trace_locked (c : List (String × List ℚ)) (k : String) :
    ∀ n, n < (get_cached_embedding_trace c k).length →
      ((get_cached_embedding_trace c k).getD n .acquire).isAccess = true →
      1 ≤ lockBalance ((get_cached_embedding_trace c k).take n) := by
  unfold get_cached_embedding_trace
  split
  · intro n hn ha
    simp only [List.length_cons, List.length_nil] at hn
    interval_cases n <;> simp_all [lockBalance, CacheEvent.isAccess]
  · split
    · intro n hn ha
      simp only [List.length_append, List.length_cons, List.length_nil] at hn
      interval_cases n <;> simp_all [lockBalance, CacheEvent.isAccess]
    · intro n hn ha
      simp only [List.length_append, List.length_cons, List.length_nil] at hn
      interval_cases n <;> simp_all [lockBalance, CacheEvent.isAccess]

/-- C8: the process-wide embedding cache is bounded with clear-on-overflow
eviction — after any sequence of `get_cached_embedding` calls starting from
the empty cache, at most 1001 entries remain; a miss against a cache of more
than 1000 entries clears it entirely before inserting, leaving exactly the new
entry; and every cache access event of a call's trace happens strictly inside
a `with _cache_lock` region (positive lock balance). -/
theorem C8_embedding_cache_bounded_and_locked :
    (∀ calls : List (String × List ℚ), (run_embedding_calls calls).length ≤ 1001) ∧
    (∀ (c : List (String × List ℚ)) (k : String) (v : List ℚ),
      c.any (fun p => p.1 == k) = false → c.length > 1000 →
      get_cached_embedding_step c k v = [(k, v)]) ∧
    (∀ (c : List (String × List ℚ)) (k : String) (n : Nat),
      n < (get_cached_embedding_trace c k).length →
      ((get_cached_embedding_trace c k).getD n .acquire).isAccess = true →
      1 ≤ lockBalance ((get_cached_embedding_trace c k).take n)) := by
  refine ⟨fun calls => run_embedding_calls_bounded_aux calls [] (by simp), ?_,
    fun c k n => get_cached_embedding_trace_locked c k n⟩
  intro c k v hmiss hsz
  unfold get_cached_embedding_step
  rw [if_neg (by simp [hmiss]), if_pos hsz]

/-- Concrete over-full cache (1001 entries) used to witness C8. -/
def bigCache : List (String × List ℚ) := List.replicate 1001 ("a", [])

theorem C8_witness :
    bigCache.any (fun p => p.1 == "b") = false ∧ bigCache.length > 1000 ∧
    get_cached_embedding_step bigCache "b" [1] = [("b", [1])] ∧
    1 < (get_cached_embedding_trace [] "k").length ∧
    (((get_cached_embedding_trace [] "k").getD 1 .acquire).isAccess = true) ∧
    1 ≤ lockBalance ((get_cached_embedding_trace [] "k").take 1) := by
  have h1 : bigCache.any (fun p => p.1 == "b") = false := by
    rw [Bool.eq_false_iff]
    intro hc
    obtain ⟨x, hx, hpx⟩ := List.any_eq_true.mp hc
    rw [List.eq_of_mem_replicate hx] at hpx
    exact absurd hpx (by decide)
  have h2 : bigCache.length > 1000 := by
    simp only [bigCache, List.length_replicate]
    omega
  exact ⟨h1, h2, C8_embedding_cache_bounded_and_locked.2.1 bigCache "b" [1] h1 h2,
    by decide, by decide,
    C8_embedding_cache_bounded_and_locked.2.2 [] "k" 1 (by decide) (by decide)⟩
/-!  OpenSearch query bodies (opensearch_service.py:380-456) and the retrieval
path of `query_documents` (app.py:1372-1413).  Query DSL fragments are
modelled as a small syntax tree. -/

/-- OpenSearch query clauses used by this repository's query builders. -/
inductive OSQuery where
  | knn (field : String) (vector : List ℚ) (k : Nat)
  | multiMatch (query : Text) (fields : List String)
  | rangeGte (field : String) (gte : ℚ)
  | boolShould (should : List OSQuery) (minimumShouldMatch : Nat)

/-- Search request body: `size` and top-level `query`. -/
structure SearchBody where
  size : Nat
  query : OSQuery

/-- Model of `search_similar` (opensearch_service.py:443-456): a single k-NN
query on the `embedding` field. -/
def search_similar_body (queryVector : List ℚ) (topK : Nat) : SearchBody :=
  ⟨topK, .knn "embedding" queryVector topK⟩

/-- Sparse-feature range filters of `search_similar_hybrid`
(opensearch_service.py:406-414): one `range` condition with threshold
`weight * 0.5` per sparse field of positive weight. -/
def sparse_conditions (sparseVector : List (String × ℚ)) : List OSQuery :=
  (sparseVector.filter fun p => 0 < p.2).map fun p =>
    OSQuery.rangeGte ("sparse_vector." ++ p.1) (p.2 * (1/2))

/-- Model of `search_similar_hybrid` (opensearch_service.py:380-441): k-NN on
`embedding`, optionally k-NN on `medical_embedding`, optionally a nested
`bool`/`should` of sparse-feature range filters, combined under `should` with
`minimum_should_match = 1` when more than one clause exists. -/
def search_similar_hybrid_body (queryVector : List ℚ) (medicalVector : Option (List ℚ))
    (sparseVector : List (String × ℚ)) (topK : Nat) : SearchBody :=
  let queries : List OSQuery :=
    [.knn "embedding" queryVector topK] ++
      (match medicalVector with
       | some m => [.knn "medical_embedding" m topK]
       | none => []) ++
      (if sparseVector ≠ [] then
        if (sparse_conditions sparseVector).isEmpty then []
        else [.boolShould (sparse_conditions sparseVector) 1]
      else [])
  match queries with
  | [q] => ⟨topK, q⟩
  | qs => ⟨topK, .boolShould qs 1⟩

/-- Retrieval path of `query_documents` (app.py:1382-1394): the endpoint embeds
the query with both models and computes the sparse features, but then issues
only `search_similar` with the general query vector — the comment at
app.py:1393 reads "Simple search (hybrid function not imported)"; the medical
vector and sparse vector arguments are accepted and unused. -/
def query_documents_search_body (queryVector : List ℚ) (medicalVector : List ℚ)
    (sparseVector : List (String × ℚ)) (topK : Nat) : SearchBody :=
  search_similar_body queryVector topK

/-- Claim-side predicate on a search body, following the claim's wording: a
`should`/`minimum_should_match = 1` combination containing dense k-NN on each
embedding field, a multi-field text match, and a sparse-feature range filter
(directly or nested one level). -/
def claimedHybridShape (b : SearchBody) : Bool :=
  match b.query with
  | .boolShould qs 1 =>
    (qs.any fun q => match q with
      | .knn "embedding" _ _ => true
      | _ => false) &&
    (qs.any fun q => match q with
      | .knn "medical_embedding" _ _ => true
      | _ => false) &&
    (qs.any fun q => match q with
      | .multiMatch _ _ => true
      | _ => false) &&
    (qs.any fun q => match q with
      | .rangeGte _ _ => true
      | .boolShould inner _ => inner.any fun q2 => match q2 with
        | .rangeGte _ _ => true
        | _ => false
      | _ => false)
  | _ => false

/-- Standard sparse query feature vector of the counterexample. -/
def svEx : List (String × ℚ) := [("medical_terms", 0), ("dosages", 1)]

/-- C2 counterexample: for a concrete query the retrieval path
(`query_documents` → `search_similar`) issues a bare k-NN on the `embedding`
field — not the claimed `should`/`minimum_should_match=1` combination of both
dense k-NN signals, a boosted multi-field text match and sparse range filters,
even though the medical vector and sparse features were computed. -/
theorem C2_counterexample :
    query_documents_search_body [1] [1] svEx 5 = ⟨5, .knn "embedding" [1] 5⟩ ∧
    claimedHybridShape (query_documents_search_body [1] [1] svEx 5) = false :=
  ⟨rfl, rfl⟩

/-- C2 (amended): the live retrieval path issues a single dense k-NN on the
general embedding field only, discarding the computed medical vector and
sparse features; the `should`/`minimum_should_match=1` combination of k-NN on
both embedding fields plus nested sparse range filters is built only by
`search_similar_hybrid`, which the endpoint never calls (and which itself
contains no multi-field text match — that exists only in the equally uncalled
`search_advanced`). -/
theorem C2_retrieval_single_knn (queryVector medicalVector m : List ℚ)
    (sparseVector : List (String × ℚ)) (topK : Nat)
    (hpos : (sparseVector.filter fun p => 0 < p.2) ≠ []) :
    query_documents_search_body queryVector medicalVector sparseVector topK =
      ⟨topK, .knn "embedding" queryVector topK⟩ ∧
    search_similar_hybrid_body queryVector (some m) sparseVector topK =
      ⟨topK, .boolShould
        [.knn "embedding" queryVector topK, .knn "medical_embedding" m topK,
          .boolShould (sparse_conditions sparseVector) 1] 1⟩ := by
  have hsv : sparseVector ≠ [] := by
    intro he
    rw [he] at hpos
    exact hpos rfl
  have hmap : (sparse_conditions sparseVector).isEmpty = false := by
    rw [Bool.eq_false_iff]
    intro hemp
    rw [List.isEmpty_iff] at hemp
    exact hpos (List.map_eq_nil_iff.mp hemp)
  refine ⟨rfl, ?_⟩
  unfold search_similar_hybrid_body
  rw [if_pos hsv]
  simp only [hmap, Bool.false_eq_true, if_false]
  rfl

theorem C2_witness :
    (svEx.filter fun p => 0 < p.2) ≠ [] ∧
    query_documents_search_body [1] [2] svEx 5 = ⟨5, .knn "embedding" [1] 5⟩ ∧
    search_similar_hybrid_body [1] (some [3]) svEx 5 =
      ⟨5, .boolShould
        [.knn "embedding" [1] 5, .knn "medical_embedding" [3] 5,
          .boolShould (sparse_conditions svEx) 1] 1⟩ :=
  ⟨by decide, (C2_retrieval_single_knn [1] [2] [3] svEx 5 (by decide)).1,
    (C2_retrieval_single_knn [1] [2] [3] svEx 5 (by decide)).2⟩

/-!  Retrieval hits and the chat/answer endpoints (app.py:1415-1624). -/

/-- Search hit as consumed by the endpoints: score and `_source` fields. -/
structure Hit where
  score : ℚ
  docId : String
  page : Nat
  s3Key : Option Text
  categories : List String
  text : Text
  deriving DecidableEq

/-- Substring after the last occurrence of `sep` (`t.rsplit(sep, 1)[-1]`). -/
def afterLastSep (sep : Char) : Text → Text
  | [] => []
  | c :: rest =>
    let r := afterLastSep sep rest
    if c == sep && !rest.contains sep then rest
    else if rest.contains sep then r
    else c :: rest

/-- Recognised document-name markers (app.py:1546). -/
def knownDocMarkers : List Text := ["WHO", "CDC", "NIH", "FDA"].map String.toList

/-- Cleaned filename of a hit (app.py:1538-1551): take the basename of the S3
key (or `document.pdf` when the key is falsy), and if it contains an
underscore, keep the parts from the first one starting with a known marker or
ending in `.pdf`; otherwise drop everything up to the first underscore. -/
def cleanFilename (s3Key : Option Text) : Text :=
  let filename :=
    match s3Key with
    | some key => if key ≠ [] then afterLastSep '/' key else "document.pdf".toList
    | none => "document.pdf".toList
  if filename.contains '_' then
    let parts := splitOnChar '_' filename
    match parts.findIdx? (fun p =>
        knownDocMarkers.any (fun m => leadsWith m p) ||
          leadsWith ".pdf".toList.reverse p.reverse) with
    | some i => joinWith ['_'] (parts.drop i)
    | none => joinWith ['_'] (parts.drop 1)
  else filename

/-- Source entry of the chat response (app.py:1567-1574). -/
structure UiSource where
  documentId : String
  filename : Text
  relevanceScore : ℚ
  excerpt : Text
  deriving DecidableEq

/-- Accumulator of the chat snippet/dedup loop: collected snippets, UI source
entries and the set of already-seen cleaned filenames. -/
structure ChatAcc where
  snippets : List Text
  uiSources : List UiSource
  seen : List Text
  deriving DecidableEq

/-- Snippet/dedup loop of `chat_query_compat` (app.py:1535-1577): per hit,
clean the filename and skip if seen; register the filename; skip hits whose
stripped text is empty; append the snippet and its UI source entry; stop as
soon as `top_k` snippets are collected. -/
def chat_hits_loop (topK : Nat) : List Hit → ChatAcc → ChatAcc
  | [], acc => acc
  | h :: rest, acc =>
    let filename := cleanFilename h.s3Key
    if acc.seen.contains filename then chat_hits_loop topK rest acc
    else
      let seen' := filename :: acc.seen
      let text := pyStrip h.text
      if text = [] then chat_hits_loop topK rest ⟨acc.snippets, acc.uiSources, seen'⟩
      else
        let snippets' := acc.snippets ++ [text.take 1200]
        let sources' := acc.uiSources ++
          [⟨h.docId, filename, h.score, text.take 300 ++ "...".toList⟩]
        if snippets'.length ≥ topK then ⟨snippets', sources', seen'⟩
        else chat_hits_loop topK rest ⟨snippets', sources', seen'⟩

/-- Break-free variant of `chat_hits_loop`, used to state that when fewer than
`top_k` snippets are collected the loop has consumed the whole hit list. -/
def chat_hits_loop_all : List Hit → ChatAcc → ChatAcc
  | [], acc => acc
  | h :: rest, acc =>
    let filename := cleanFilename h.s3Key
    if acc.seen.contains filename then chat_hits_loop_all rest acc
    else
      let seen' := filename :: acc.seen
      let text := pyStrip h.text
      if text = [] then chat_hits_loop_all rest ⟨acc.snippets, acc.uiSources, seen'⟩
      else
        chat_hits_loop_all rest ⟨acc.snippets ++ [text.take 1200],
          acc.uiSources ++ [⟨h.docId, filename, h.score, text.take 300 ++ "...".toList⟩], seen'⟩

/-- Decimal digits of a natural number. -/
def natDigits (n : Nat) : Text := Nat.toDigits 10 n

/-- Numbered answer parts `f"[{i}] {snippet[:400]}..."` (app.py:1594-1596),
starting the enumeration at `i`. -/
def enumerate_answer_parts : Nat → List Text → List Text
  | _, [] => []
  | i, s :: rest =>
    ('[' :: natDigits i ++ ']' :: ' ' :: (s.take 400 ++ "...".toList)) ::
      enumerate_answer_parts (i + 1) rest

/-- Maximum relevance score of a nonempty source list
(`max(s["relevanceScore"] for s in ui_sources)`). -/
def maxUiScore : List UiSource → ℚ
  | [] => 0
  | x :: xs => xs.foldl (fun b y => max b y.relevanceScore) x.relevanceScore

/-- Follow-up questions (app.py:1607-1611). -/
def chat_followups (query : Text) : List Text :=
  if containsSubstring (lowerText query) "contraindication".toList then
    ["What are the dosage adjustments?".toList, "List monitoring parameters.".toList]
  else if containsSubstring (lowerText query) "dosage".toList then
    ["Any renal/hepatic adjustments?".toList, "What are common adverse effects?".toList]
  else []

/-- Sentinel answer string returned with empty citations (app.py:1459, 1582). -/
def sentinel_answer : Text := "Insufficient evidence in the provided documents.".toList

/-- Result of `/api/chat/query` (app.py:1488-1624): an HTTP error or a
`response` object. -/
inductive ChatResult where
  | error (status : Nat) (msg : String)
  | response (answer : Text) (sources : List UiSource) (confidence : ℚ) (followUps : List Text)

/-- Classification of error results. -/
def ChatResult.isErr : ChatResult → Bool
  | .error _ _ => true
  | _ => false

/-- Model of the response construction of `chat_query_compat`
(app.py:1520-1620): run the snippet/dedup loop; with no snippets return the
sentinel answer with empty sources, confidence 0 and no follow-ups; otherwise
format the top-3 snippets as the answer, attach the deduplicated sources and
the squashed confidence `clamp(max_score / 10, 0, 1)`. -/
def chat_query_result (query : Text) (hits : List Hit) (topK : Nat) : ChatResult :=
  let acc := chat_hits_loop topK hits ⟨[], [], []⟩
  if acc.snippets = [] then .response sentinel_answer [] 0 []
  else
    .response (joinWith "\n\n".toList (enumerate_answer_parts 1 (acc.snippets.take 3)))
      acc.uiSources
      (if acc.uiSources ≠ [] then max 0 (min 1 (maxUiScore acc.uiSources / 10)) else 0)
      (chat_followups query)

/-- Citation entry of `/api/answer` before labelling (app.py:1449-1454). -/
structure Citation where
  docId : String
  page : Nat
  s3Key : Option Text
  categories : List String
  deriving DecidableEq

/-- Labelled citation with optional presigned URL (app.py:1475-1477). -/
structure LabeledCitation where
  docId : String
  page : Nat
  s3Key : Option Text
  categories : List String
  label : Text
  url : Option Text

/-- Snippet/citation accumulation loop of `answer_with_bedrock`
(app.py:1442-1456): skip hits with blank text, truncate snippets to 1200
characters, stop at `top_k` snippets. -/
def rag_snippets_loop (topK : Nat) : List Hit → List Text × List Citation →
    List Text × List Citation
  | [], acc => acc
  | h :: rest, (snips, cits) =>
    let text := pyStrip h.text
    if text = [] then rag_snippets_loop topK rest (snips, cits)
    else
      let snips' := snips ++ [text.take 1200]
      let cits' := cits ++ [⟨h.docId, h.page, h.s3Key, h.categories⟩]
      if snips'.length ≥ topK then (snips', cits')
      else rag_snippets_loop topK rest (snips', cits')

/-- Citation labelling `c["label"] = f"[{i}]"` with optional presigned URL
(app.py:1475-1477), starting at index `i`; `presignF` models the external
`s3.generate_presigned_url` call. -/
def label_citations (presignF : Text → Option Text) : Nat → List Citation →
    List LabeledCitation
  | _, [] => []
  | i, c :: rest =>
    ⟨c.docId, c.page, c.s3Key, c.categories, '[' :: natDigits i ++ [']'],
      match c.s3Key with
      | some k => if k ≠ [] then presignF k else none
      | none => none⟩ :: label_citations presignF (i + 1) rest

/-- Result of `/api/answer` (app.py:1415-1486). -/
inductive RagResult where
  | error (status : Nat) (msg : String)
  | success (answer : Text) (citations : List LabeledCitation)

/-- Classification of error results. -/
def RagResult.isErr : RagResult → Bool
  | .error _ _ => true
  | _ => false

/-- Model of the response construction of `answer_with_bedrock`
(app.py:1438-1482): build snippets and citations from the hits; with no
snippets return the sentinel answer with empty citations (HTTP 200); otherwise
answer via the external generator `g` with labelled citations. -/
def answer_with_bedrock_result (g : Text → List Text → Text)
    (presignF : Text → Option Text) (question : Text) (hits : List Hit) (topK : Nat) :
    RagResult :=
  let sc := rag_snippets_loop topK hits ([], [])
  if sc.1 = [] then .success sentinel_answer []
  else .success (g question sc.1) (label_citations presignF 1 sc.2)

theorem rag_snippets_loop_of_blank {topK : Nat} :
    ∀ (hits : List Hit) (acc : List Text × List Citation),
      (∀ h ∈ hits, pyStrip h.text = []) → rag_snippets_loop topK hits acc = acc := by
  intro hits
  induction hits with
  | nil => intro acc _; rfl
  | cons h rest ih =>
    intro acc hall
    obtain ⟨snips, cits⟩ := acc
    simp only [rag_snippets_loop]
    rw [if_pos (hall h (by simp))]
    exact ih _ (fun x hx => hall x (by simp [hx]))

theorem chat_hits_loop_of_blank {topK : Nat} :
    ∀ (hits : List Hit) (acc : ChatAcc), (∀ h ∈ hits, pyStrip h.text = []) →
      (chat_hits_loop topK hits acc).snippets = acc.snippets ∧
      (chat_hits_loop topK hits acc).uiSources = acc.uiSources := by
  intro hits
  induction hits with
  | nil => intro acc _; exact ⟨rfl, rfl⟩
  | cons h rest ih =>
    intro acc hall
    simp only [chat_hits_loop]
    split
    · exact ih acc (fun x hx => hall x (by simp [hx]))
    · rw [if_pos (hall h (by simp))]
      exact ih _ (fun x hx => hall x (by simp [hx]))

/-- C4: when retrieval yields no usable snippets (every hit's text strips to
empty — in particular on an empty index, where the hit list itself is empty),
both answer endpoints return exactly the answer
"Insufficient evidence in the provided documents." with an empty
citations/sources list, and neither reports an error. -/
theorem C4_insufficient_evidence (g : Text → List Text → Text)
    (presignF : Text → Option Text) (question query : Text) (hits : List Hit) (topK : Nat)
    (hblank : ∀ h ∈ hits, pyStrip h.text = []) :
    answer_with_bedrock_result g presignF question hits topK =
      .success sentinel_answer [] ∧
    (answer_with_bedrock_result g presignF question hits topK).isErr = false ∧
    chat_query_result query hits topK = .response sentinel_answer [] 0 [] ∧
    (chat_query_result query hits topK).isErr = false := by
  have h1 : answer_with_bedrock_result g presignF question hits topK =
      .success sentinel_answer [] := by
    unfold answer_with_bedrock_result
    rw [rag_snippets_loop_of_blank hits ([], []) hblank]
    rfl
  have h2 : chat_query_result query hits topK = .response sentinel_answer [] 0 [] := by
    unfold chat_query_result
    rw [if_pos ((chat_hits_loop_of_blank hits ⟨[], [], []⟩ hblank).1)]
  exact ⟨h1, by rw [h1]; rfl, h2, by rw [h2]; rfl⟩

theorem C4_witness :
    (∀ h ∈ ([] : List Hit), pyStrip h.text = []) ∧
    answer_with_bedrock_result (fun _ _ => []) (fun _ => none) "q".toList [] 5 =
      .success sentinel_answer [] ∧
    chat_query_result "q".toList [] 5 = .response sentinel_answer [] 0 [] :=
  ⟨by simp,
    (C4_insufficient_evidence (fun _ _ => []) (fun _ => none) "q".toList "q".toList [] 5
      (by simp)).1,
    (C4_insufficient_evidence (fun _ _ => []) (fun _ => none) "q".toList "q".toList [] 5
      (by simp)).2.2.1⟩

theorem chat_hits_loop_inv (topK : Nat) :
    ∀ (hits : List Hit) (acc : ChatAcc),
      hits.Pairwise (fun a b => b.score ≤ a.score) →
      (∀ e ∈ acc.uiSources, e.filename ∈ acc.seen) →
      acc.uiSources.Pairwise (fun a b => a.filename ≠ b.filename) →
      (∀ e ∈ acc.uiSources, ∀ h ∈ hits, cleanFilename h.s3Key = e.filename →
        h.score ≤ e.relevanceScore) →
      ((chat_hits_loop topK hits acc).uiSources.Pairwise
          (fun a b => a.filename ≠ b.filename) ∧
        (∀ e ∈ (chat_hits_loop topK hits acc).uiSources, ∀ h ∈ hits,
          cleanFilename h.s3Key = e.filename → h.score ≤ e.relevanceScore) ∧
        (∀ e ∈ (chat_hits_loop topK hits acc).uiSources,
          e ∈ acc.uiSources ∨ e.filename ∉ acc.seen)) := by
  intro hits
  induction hits with
  | nil =>
    intro acc _ _ hpw _
    exact ⟨hpw, by simp, fun e he => Or.inl he⟩
  | cons h rest ih =>
    intro acc hsorted hseen hpw hmax
    have hhead : ∀ b ∈ rest, b.score ≤ h.score := (List.pairwise_cons.mp hsorted).1
    have hrest : rest.Pairwise (fun a b => b.score ≤ a.score) :=
      (List.pairwise_cons.mp hsorted).2
    simp only [chat_hits_loop]
    split
    · rename_i hcont
      have hmem : cleanFilename h.s3Key ∈ acc.seen :=
        List.mem_of_elem_eq_true hcont
      obtain ⟨ra, rb, rc⟩ := ih acc hrest hseen hpw
        (fun e he h' hh' => hmax e he h' (List.mem_cons_of_mem _ hh'))
      refine ⟨ra, ?_, rc⟩
      intro e he h' hh' hf
      rcases List.mem_cons.mp hh' with rfl | hh'
      · rcases rc e he with hin | hnot
        · exact hmax e hin h' (List.mem_cons_self _ _) hf
        · exact absurd (hf ▸ hmem) hnot
      · exact rb e he h' hh' hf
    · rename_i hcont
      have hnotmem : cleanFilename h.s3Key ∉ acc.seen := by
        intro hmem
        exact hcont (List.elem_eq_true_of_mem hmem)
      split
      · -- blank text: filename registered, nothing appended
        obtain ⟨ra, rb, rc⟩ := ih ⟨acc.snippets, acc.uiSources, cleanFilename h.s3Key :: acc.seen⟩
          hrest
          (fun e he => List.mem_cons_of_mem _ (hseen e he))
          hpw
          (fun e he h' hh' => hmax e he h' (List.mem_cons_of_mem _ hh'))
        refine ⟨ra, ?_, ?_⟩
        · intro e he h' hh' hf
          rcases List.mem_cons.mp hh' with rfl | hh'
          · rcases rc e he with hin | hnot
            · exact hmax e hin h' (List.mem_cons_self _ _) hf
            · exact absurd (List.mem_cons_self _ _) (hf ▸ hnot)
          · exact rb e he h' hh' hf
        · intro e he
          rcases rc e he with hin | hnot
          · exact Or.inl hin
          · exact Or.inr (fun hx => hnot (List.mem_cons_of_mem _ hx))
      · rename_i htext
        set enew : UiSource :=
          ⟨h.docId, cleanFilename h.s3Key, h.score,
            (pyStrip h.text).take 300 ++ "...".toList⟩ with henew
        have hpw' : (acc.uiSources ++ [enew]).Pairwise (fun a b => a.filename ≠ b.filename) := by
          rw [List.pairwise_append]
          refine ⟨hpw, List.pairwise_singleton _ _, ?_⟩
          intro a ha b hb
          simp only [List.mem_singleton] at hb
          subst hb
          intro hab
          have hef : enew.filename = cleanFilename h.s3Key := rfl
          exact hnotmem (hef ▸ hab ▸ hseen a ha)
        have hseen' : ∀ e ∈ acc.uiSources ++ [enew],
            e.filename ∈ cleanFilename h.s3Key :: acc.seen := by
          intro e he
          rcases List.mem_append.mp he with he | he
          · exact List.mem_cons_of_mem _ (hseen e he)
          · simp only [List.mem_singleton] at he
            subst he
            exact List.mem_cons_self _ _
        have hmax1 : ∀ e ∈ acc.uiSources ++ [enew], ∀ h' ∈ h :: rest,
            cleanFilename h'.s3Key = e.filename → h'.score ≤ e.relevanceScore := by
          intro e he h' hh' hf
          rcases List.mem_append.mp he with he | he
          · exact hmax e he h' hh' hf
          · simp only [List.mem_singleton] at he
            subst he
            rcases List.mem_cons.mp hh' with rfl | hh'
            · exact le_refl _
            · exact hhead h' hh'
        split
        · -- top_k reached: stop with the appended entry
          refine ⟨hpw', hmax1, ?_⟩
          intro e he
          rcases List.mem_append.mp he with he | he
          · exact Or.inl he
          · simp only [List.mem_singleton] at he
            subst he
            exact Or.inr hnotmem
        · obtain ⟨ra, rb, rc⟩ := ih
            ⟨acc.snippets ++ [(pyStrip h.text).take 1200], acc.uiSources ++ [enew],
              cleanFilename h.s3Key :: acc.seen⟩
            hrest hseen' hpw'
            (fun e he h' hh' => hmax1 e he h' (List.mem_cons_of_mem _ hh'))
          refine ⟨ra, ?_, ?_⟩
          · intro e he h' hh' hf
            rcases List.mem_cons.mp hh' with rfl | hh'
            · rcases rc e he with hin | hnot
              · exact hmax1 e hin h' (List.mem_cons_self _ _) hf
              · exact absurd (List.mem_cons_self _ _) (hf ▸ hnot)
            · exact rb e he h' hh' hf
          · intro e he
            rcases rc e he with hin | hnot
            · rcases List.mem_append.mp hin with hin | hin
              · exact Or.inl hin
              · simp only [List.mem_singleton] at hin
                subst hin
                exact Or.inr hnotmem
            · exact Or.inr (fun hx => hnot (List.mem_cons_of_mem _ hx))

theorem chat_hits_loop_len (topK : Nat) :
    ∀ (hits : List Hit) (acc : ChatAcc), acc.snippets.length < topK →
      (chat_hits_loop topK hits acc).snippets.length ≤ topK := by
  intro hits
  induction hits with
  | nil => intro acc h; exact Nat.le_of_lt h
  | cons h rest ih =>
    intro acc hlen
    simp only [chat_hits_loop]
    split
    · exact ih acc hlen
    · split
      · exact ih _ hlen
      · split
        · rename_i hstop
          simp only [List.length_append, List.length_singleton]
          omega
        · rename_i hgo
          apply ih
          simp only [List.length_append, List.length_singleton] at hgo ⊢
          omega

theorem chat_hits_loop_exhausts (topK : Nat) :
    ∀ (hits : List Hit) (acc : ChatAcc),
      (chat_hits_loop topK hits acc).snippets.length < topK →
      chat_hits_loop topK hits acc = chat_hits_loop_all hits acc := by
  intro hits
  induction hits with
  | nil => intro acc _; rfl
  | cons h rest ih =>
    intro acc hres
    simp only [chat_hits_loop] at hres ⊢
    simp only [chat_hits_loop_all]
    split
    · exact ih acc (by
        rename_i hcont
        simp only [chat_hits_loop, if_pos hcont] at hres
        exact hres)
    · rename_i hcont
      split
      · rename_i htext
        rw [if_neg hcont, if_pos htext] at hres
        exact ih _ hres
      · rename_i htext
        rw [if_neg hcont, if_neg htext] at hres
        split at hres
        · rename_i hstop
          simp only at hres
          rw [if_pos hstop] at *
          omega
        · rename_i hgo
          rw [if_neg hgo]
          exact ih _ hres

/-- C3: for every descending-ranked hit list, the chat query handler's
`ui_sources` contains at most one entry per cleaned filename; each kept entry
carries a score at least that of every hit sharing its cleaned filename (so
the highest-scoring one is kept); and the handler keeps iterating the hit list
until `top_k` snippets over unique files are collected (never more) or the
hits are exhausted (the loop result then coincides with the break-free scan of
the whole list). -/
theorem C3_dedup_unique_highest (hits : List Hit) (topK : Nat)
    (hsorted : hits.Pairwise (fun a b => b.score ≤ a.score)) (htop : 1 ≤ topK) :
    (chat_hits_loop topK hits ⟨[], [], []⟩).uiSources.Pairwise
        (fun a b => a.filename ≠ b.filename) ∧
    (∀ e ∈ (chat_hits_loop topK hits ⟨[], [], []⟩).uiSources, ∀ h ∈ hits,
        cleanFilename h.s3Key = e.filename → h.score ≤ e.relevanceScore) ∧
    (chat_hits_loop topK hits ⟨[], [], []⟩).snippets.length ≤ topK ∧
    ((chat_hits_loop topK hits ⟨[], [], []⟩).snippets.length < topK →
      chat_hits_loop topK hits ⟨[], [], []⟩ = chat_hits_loop_all hits ⟨[], [], []⟩) := by
  obtain ⟨ra, rb, _⟩ := chat_hits_loop_inv topK hits ⟨[], [], []⟩ hsorted
    (by simp) (by simp) (by simp)
  exact ⟨ra, rb, chat_hits_loop_len topK hits ⟨[], [], []⟩ (by simpa using htop),
    chat_hits_loop_exhausts topK hits ⟨[], [], []⟩⟩

/-- Two concrete hits from different documents whose S3 keys clean to the same
filename, ranked descending. -/
def hitA : Hit :=
  ⟨10, "d1", 1, some "medical_documents/20240101_ab12_WHO_guide.pdf".toList, [],
    "Aspirin 100mg daily for fever.".toList⟩

/-- Lower-scored duplicate-filename hit. -/
def hitB : Hit :=
  ⟨8, "d2", 2, some "medical_documents/20240202_cd34_WHO_guide.pdf".toList, [],
    "Aspirin dosing information text.".toList⟩

theorem C3_witness :
    List.Pairwise (fun a b => b.score ≤ a.score) [hitA, hitB] ∧ 1 ≤ 5 ∧
    (chat_hits_loop 5 [hitA, hitB] ⟨[], [], []⟩).uiSources.Pairwise
      (fun a b => a.filename ≠ b.filename) ∧
    (chat_hits_loop 5 [hitA, hitB] ⟨[], [], []⟩).snippets.length ≤ 5 :=
  ⟨by decide, by decide,
    (C3_dedup_unique_highest [hitA, hitB] 5 (by decide) (by decide)).1,
    (C3_dedup_unique_highest [hitA, hitB] 5 (by decide) (by decide)).2.2.1⟩
